import Mathlib

/-!
# Verification of the pgmq claim/process/archive protocol

Shallow embedding of `pgmq/pgmq.py` (data model, `retrieve_message`,
`delete_message`, `create_message_archive`) and of the worker callback in
`example/worker.py` (`process_message`, `callback`).

Modelling conventions:

* Timestamps and durations are integers (an abstract tick, e.g. seconds);
  `CURRENT_TIMESTAMP` and `datetime.now(UTC)` become explicit `now` parameters.
* A JSONB column stores a canonical JSON value.  JSON numbers are modelled as
  integers, so the `pydantic.Json` parse on read and the `json.dumps` +
  JSONB parse on write are value-preserving, and two equal values have equal
  canonical serializations (`serializeJson`).
* The Python attribute value of a parsed JSONB payload is `None` exactly when
  the stored JSON value is the JSON literal `null` (`Json.null`).
* The database is a record of the `messages.message` table, the
  `messages.message_archive` table and the archive id sequence.
* The claim query (`UPDATE ... WHERE id = $1 AND (lock_expires_at IS NULL OR
  lock_expires_at < CURRENT_TIMESTAMP) RETURNING *`) is one atomic state
  transition: condition and mutation happen in a single step of the model.
-/

/-- JSON values as stored in a JSONB column (numbers restricted to integers). -/
inductive Json where
  | null : Json
  | bool (b : Bool) : Json
  | num (n : Int) : Json
  | str (s : String) : Json
  | arr (elements : List Json) : Json
  | obj (members : List (String × Json)) : Json

/-- The Python attribute of a parsed JSONB payload is `None` exactly when the
stored value is the JSON literal `null`. -/
def Json.isNull : Json → Bool
  | .null => true
  | _ => false

mutual
/-- Canonical serialization of a JSON value (Python `json.dumps` layout:
`", "` and `": "` separators).  Equal values serialize to equal byte strings. -/
def serializeJson : Json → String
  | .null => "null"
  | .bool true => "true"
  | .bool false => "false"
  | .num n => toString n
  | .str s => "\x22" ++ s ++ "\x22"
  | .arr elements => "[" ++ serializeJsonList elements ++ "]"
  | .obj members => "\x7b" ++ serializeJsonMembers members ++ "\x7d"

/-- Comma-separated serialization of array elements. -/
def serializeJsonList : List Json → String
  | [] => ""
  | [x] => serializeJson x
  | x :: xs => serializeJson x ++ ", " ++ serializeJsonList xs

/-- Comma-separated serialization of object members. -/
def serializeJsonMembers : List (String × Json) → String
  | [] => ""
  | [(k, v)] => "\x22" ++ k ++ "\x22: " ++ serializeJson v
  | (k, v) :: xs =>
      "\x22" ++ k ++ "\x22: " ++ serializeJson v ++ ", " ++ serializeJsonMembers xs
end

/-- `MessageStatus`: the closed outcome taxonomy from `pgmq.py`. -/
inductive MessageStatus where
  | success : MessageStatus
  | failed : MessageStatus
  | rejected : MessageStatus
  | lock_expired : MessageStatus
deriving DecidableEq

/-- A row of the `messages.message` table. -/
structure MessageRow where
  id : Int
  created_at : Int
  message : Json
  lock_expires_at : Option Int


/-- The pydantic `Message` model (`pgmq.py` lines 29-33).  `message` is the
parsed JSONB payload. -/
structure Message where
  id : Int
  created_at : Int
  message : Json
  lock_expires_at : Option Int


/-- A row of the `messages.message_archive` table / the pydantic
`MessageArchive` model (`pgmq.py` lines 36-43). -/
structure MessageArchive where
  id : Int
  created_at : Int
  archived_at : Int
  message : Json
  result : MessageStatus
  handled_by : String
  details : Option String


/-- Database state: the message table, the archive table, and the archive
table's id sequence. -/
structure DB where
  messages : List MessageRow
  archive : List MessageArchive
  next_archive_id : Int


/-- Distinct primary keys on `messages.message` (`id SERIAL PRIMARY KEY`). -/
def DB.uniqueIds (db : DB) : Prop :=
  db.messages.Pairwise (fun r s => r.id ≠ s.id)

instance (db : DB) : Decidable db.uniqueIds := by
  unfold DB.uniqueIds; infer_instance

/-- The claim query's WHERE condition on one row:
`lock_expires_at IS NULL OR lock_expires_at < CURRENT_TIMESTAMP`. -/
def claimable (r : MessageRow) (now : Int) : Bool :=
  match r.lock_expires_at with
  | none => true
  | some t => t < now

/-- `retrieve_message` (`pgmq.py` lines 53-80): one atomic conditional
UPDATE.  Sets `lock_expires_at = now + lock_duration` on the row whose `id`
matches and whose current lock is NULL or expired, returning the post-update
row as a `Message`; returns `none` (and leaves the state unchanged) when no
row matches. -/
def retrieve_message (db : DB) (id_ : Int) (lock_duration : Int) (now : Int) :
    Option Message × DB :=
  match db.messages.find? (fun r => r.id == id_ && claimable r now) with
  | none => (none, db)
  | some r =>
      (some ⟨r.id, r.created_at, r.message, some (now + lock_duration)⟩,
       { db with
          messages := db.messages.map (fun x =>
            if x.id == id_ && claimable x now then
              { x with lock_expires_at := some (now + lock_duration) }
            else x) })

/-- `delete_message` (`pgmq.py` lines 46-50):
`DELETE FROM messages.message WHERE id = $1`. -/
def delete_message (db : DB) (id_ : Int) : DB :=
  { db with messages := db.messages.filter (fun r => !(r.id == id_)) }

/-- `create_message_archive` (`pgmq.py` lines 83-117): INSERT INTO
`messages.message_archive` of the original `created_at`, the payload
(serialized with `json.dumps` and re-read by the JSONB column, which is
value-preserving here), the result, the handler label and the details;
`archived_at` defaults to the current timestamp, `id` to the sequence. -/
def create_message_archive (db : DB) (message : Message) (result : MessageStatus)
    (handled_by : String) (details : Option String) (now : Int) :
    MessageArchive × DB :=
  let row : MessageArchive :=
    { id := db.next_archive_id
      created_at := message.created_at
      archived_at := now
      message := message.message
      result := result
      handled_by := handled_by
      details := details }
  (row, { db with archive := db.archive ++ [row],
                  next_archive_id := db.next_archive_id + 1 })

/-! ## The worker callback (`example/worker.py`) -/

/-- A row survives the DELETE exactly when its id differs. -/
theorem mem_delete_message {db : DB} {id_ : Int} {r : MessageRow}
    (h : r ∈ (delete_message db id_).messages) : r.id ≠ id_ := by
  unfold delete_message at h
  have := List.of_mem_filter h
  simpa using this

/-- Digit run of a Python integer literal after its first digit: digits with
single underscores allowed between digits (`int("1_0") = 10`, while `"1__0"`,
`"1_"` raise `ValueError`). -/
def pyDigits : List Char → Nat → Option Nat
  | [], acc => some acc
  | c :: cs, acc =>
      if c.isDigit then pyDigits cs (10 * acc + (c.toNat - 48))
      else if c = '_' then
        match cs with
        | [] => none
        | d :: rest =>
            if d.isDigit then pyDigits rest (10 * acc + (d.toNat - 48)) else none
      else none

/-- An unsigned Python integer literal: a digit followed by `pyDigits`. -/
def pyUnsigned : List Char → Option Nat
  | [] => none
  | c :: cs => if c.isDigit then pyDigits cs (c.toNat - 48) else none

/-- ASCII whitespace stripped by Python `int(str)`. -/
def isPySpace (c : Char) : Bool :=
  c = ' ' || c = '\t' || c = '\n' || c = '\r' || c = '\x0b' || c = '\x0c'

/-- Python `int(s)` for `str` input: strip surrounding whitespace, optional
sign, then a digit run (underscores between digits allowed).  `none` models a
raised `ValueError`. -/
def parsePyInt (s : String) : Option Int :=
  match ((s.toList.dropWhile isPySpace).reverse.dropWhile isPySpace).reverse with
  | '+' :: rest => (pyUnsigned rest).map Int.ofNat
  | '-' :: rest => (pyUnsigned rest).map (fun n => -(Int.ofNat n))
  | cs => (pyUnsigned cs).map Int.ofNat

/-- `ProcessMessageResult` (`worker.py` lines 23-26). -/
structure ProcessMessageResult where
  result : MessageStatus
  details : Option String
deriving DecidableEq

/-- The observable behaviour of one `process_message` invocation: it either
returns a result without suspending, suspends in `asyncio.sleep` and would
raise `NotImplementedError` afterwards (the `"timeout"` arm), or raises a
`ValueError` (the `"raise"` arm). -/
inductive PmBehavior where
  | ret (r : ProcessMessageResult)
  | sleepThenPanic (duration : Int)
  | raiseValueError (description : String)
deriving DecidableEq

/-- `process_message` (`worker.py` lines 28-57): a non-list payload is
rejected as invalid format; an empty list is rejected; otherwise the first
element is matched against the instruction tokens `"fail"`, `"reject"`,
`"timeout"` (sleep `timeout + 1` seconds, then panic), `"raise"`; anything
else is successful fake work. -/
def process_message (message : Json) (timeout : Int) : PmBehavior :=
  match message with
  | .arr [] => .ret ⟨.rejected, some "no message in list"⟩
  | .arr (instruction :: _) =>
      match instruction with
      | .str "fail" => .ret ⟨.failed, some "explicit fail instruction received"⟩
      | .str "reject" => .ret ⟨.rejected, some "explicit reject instruction received"⟩
      | .str "timeout" => .sleepThenPanic (timeout + 1)
      | .str "raise" => .raiseValueError "Explicit raise instruction received"
      | _ => .ret ⟨.success, some "fake work was done"⟩
  | _ => .ret ⟨.rejected, some "invalid message format"⟩

/-- `async with asyncio.timeout(remaining): await process_message(...)`
together with the callback's handlers (`worker.py` lines 107-117):
`asyncio.TimeoutError` becomes `failed`/`"timed out"`, any other exception
`e` becomes `failed`/`"unhandled exception: {e}"`.  A returning behaviour has
no suspension point, so it completes even when `remaining = 0`; a sleep
longer than `remaining` is cancelled at the deadline (the sleeper's
subsequent raise is never reached) and surfaces as `TimeoutError`. -/
def runGuarded (b : PmBehavior) (remaining : Int) : ProcessMessageResult :=
  match b with
  | .ret r => r
  | .sleepThenPanic duration =>
      if remaining < duration then ⟨.failed, some "timed out"⟩
      else ⟨.failed, some "unhandled exception: Timeout should have fired, panic!"⟩
  | .raiseValueError description =>
      ⟨.failed, some ("unhandled exception: " ++ description)⟩

/-- A storage fault (connection loss, transaction failure) during the
archive-and-delete transaction. -/
inductive StorageFault where
  | deleteFailed : StorageFault
  | insertFailed : StorageFault
deriving DecidableEq

/-- Body of the `async with connection.transaction()` block (`worker.py`
lines 121-129): `delete_message` then `create_message_archive`, each of which
may raise a storage fault (injected here through the two flags). -/
def archiveDeleteBody (db : DB) (message : Message) (result : MessageStatus)
    (handled_by : String) (details : Option String) (now : Int)
    (deleteFault insertFault : Bool) : Except StorageFault (MessageArchive × DB) :=
  if deleteFault then .error .deleteFailed
  else
    let db1 := delete_message db message.id
    if insertFault then .error .insertFailed
    else .ok (create_message_archive db1 message result handled_by details now)

/-- `async with connection.transaction()`: commit the body's effects on
success; on a fault, roll back (database unchanged) and propagate the
fault. -/
def archiveDeleteTxn (db : DB) (message : Message) (result : MessageStatus)
    (handled_by : String) (details : Option String) (now : Int)
    (deleteFault insertFault : Bool) : Except StorageFault MessageArchive × DB :=
  match archiveDeleteBody db message result handled_by details now
      deleteFault insertFault with
  | .ok (a, db2) => (.ok a, db2)
  | .error f => (.error f, db)

/-- How one callback invocation ends. -/
inductive CallbackResult where
  | badPayload : CallbackResult
  | skipped : CallbackResult
  | assertionFault (description : String) : CallbackResult
  | storageFault (f : StorageFault) : CallbackResult
  | archived (a : MessageArchive) : CallbackResult

/-- One callback invocation: how it ended, whether `process_message` was
awaited, and the resulting database. -/
structure CallbackRun where
  result : CallbackResult
  engineInvoked : Bool
  db : DB

/-- The worker's lock duration, `timeout = timedelta(seconds=1)`
(`worker.py` line 73). -/
def workerLockDuration : Int := 1

/-- The worker callback (`worker.py` lines 60-132).  `nowClaim` is the
database's `CURRENT_TIMESTAMP` during `retrieve_message`, `nowWork` the
worker's `datetime.now(UTC)` at line 101, `nowArchive` the database clock at
the archive insert.  Parse the notification payload as an integer id
(`ValueError` escalates as `badPayload`); claim the row (`none` is a skip);
run the two asserts; compute `timeout_remaining = lock_expires_at - utcnow`;
raise `TimeoutError` before any work when it is negative, otherwise run the
engine under the deadline; archive the outcome in one transaction. -/
def callback (db : DB) (payload : String) (nowClaim nowWork nowArchive : Int)
    (deleteFault insertFault : Bool) : CallbackRun :=
  match parsePyInt payload with
  | none => ⟨.badPayload, false, db⟩
  | some id_ =>
      let step := retrieve_message db id_ workerLockDuration nowClaim
      match step.1 with
      | none => ⟨.skipped, false, step.2⟩
      | some message =>
          if message.message.isNull then
            ⟨.assertionFault "Message is None!", false, step.2⟩
          else
            match message.lock_expires_at with
            | none => ⟨.assertionFault "lock_expires_at not set!", false, step.2⟩
            | some lockExpiresAt =>
                let timeoutRemaining := lockExpiresAt - nowWork
                let engineRan := decide (0 ≤ timeoutRemaining)
                let processResult :=
                  if timeoutRemaining < 0 then
                    ProcessMessageResult.mk .failed (some "timed out")
                  else
                    runGuarded (process_message message.message timeoutRemaining)
                      timeoutRemaining
                match archiveDeleteTxn step.2 message processResult.result "worker"
                    processResult.details nowArchive deleteFault insertFault with
                | (.ok a, db2) => ⟨.archived a, engineRan, db2⟩
                | (.error f, db2) => ⟨.storageFault f, engineRan, db2⟩

/-! ## Helper lemmas -/

/-- The claim query's WHERE clause, in the spec's words: the lock is NULL or
strictly in the past. -/
theorem claimable_iff (r : MessageRow) (now : Int) :
    claimable r now = true ↔
      r.lock_expires_at = none ∨ ∃ t, r.lock_expires_at = some t ∧ t < now := by
  unfold claimable
  cases h : r.lock_expires_at with
  | none => simp
  | some t => simp [h]

/-- With distinct primary keys, two member rows with equal ids coincide. -/
theorem eq_of_mem_of_id_eq {l : List MessageRow} {x r : MessageRow}
    (hu : l.Pairwise (fun a b => a.id ≠ b.id)) (hx : x ∈ l) (hr : r ∈ l)
    (hid : x.id = r.id) : x = r := by
  induction l with
  | nil => cases hx
  | cons h t ih =>
    rw [List.pairwise_cons] at hu
    rcases List.mem_cons.mp hx with rfl | hxt
    · rcases List.mem_cons.mp hr with rfl | hrt
      · rfl
      · exact absurd hid (hu.1 r hrt)
    · rcases List.mem_cons.mp hr with rfl | hrt
      · exact absurd hid.symm (hu.1 x hxt)
      · exact ih hu.2 hxt hrt

/-- With distinct primary keys, the claim query's row scan finds exactly the
member row with the requested id when that row is claimable. -/
theorem find_claim_of_mem {l : List MessageRow} {id_ now : Int} {r : MessageRow}
    (hu : l.Pairwise (fun a b => a.id ≠ b.id)) (hr : r ∈ l) (hid : r.id = id_)
    (hc : claimable r now = true) :
    l.find? (fun x => x.id == id_ && claimable x now) = some r := by
  induction l with
  | nil => cases hr
  | cons h t ih =>
    rw [List.pairwise_cons] at hu
    rcases List.mem_cons.mp hr with rfl | hmem
    · exact List.find?_cons_of_pos _ (by simp [hid, hc])
    · rw [List.find?_cons_of_neg]
      · exact ih hu.2 hmem
      · have hne : h.id ≠ r.id := hu.1 r hmem
        simp only [Bool.and_eq_true, beq_iff_eq, not_and]
        intro h1
        exact absurd (h1.trans hid.symm) hne

/-- When no row matches the claim query's WHERE clause, `retrieve_message`
returns `none` and leaves the database unchanged. -/
theorem retrieve_message_none {db : DB} {id_ lock_duration now : Int}
    (h : ∀ r ∈ db.messages, ¬(r.id = id_ ∧ claimable r now = true)) :
    retrieve_message db id_ lock_duration now = (none, db) := by
  unfold retrieve_message
  rw [List.find?_eq_none.mpr]
  intro x hx
  simp only [Bool.and_eq_true, beq_iff_eq, not_and]
  intro h1
  exact fun hc => h x hx ⟨h1, hc⟩

/-- A successful claim comes from a member row with the requested id that was
claimable, and returns that row with the fresh lock. -/
theorem retrieve_message_some {db : DB} {id_ lock_duration now : Int} {m : Message}
    (h : (retrieve_message db id_ lock_duration now).1 = some m) :
    ∃ r ∈ db.messages, r.id = id_ ∧ claimable r now = true ∧
      m = ⟨r.id, r.created_at, r.message, some (now + lock_duration)⟩ := by
  unfold retrieve_message at h
  cases hf : db.messages.find? (fun r => r.id == id_ && claimable r now) with
  | none => rw [hf] at h; simp at h
  | some r =>
    rw [hf] at h
    simp only [Option.some.injEq] at h
    have hmem := List.mem_of_find?_eq_some hf
    have hp := List.find?_some hf
    simp only [Bool.and_eq_true, beq_iff_eq] at hp
    exact ⟨r, hmem, hp.1, hp.2, h.symm⟩

/-- With distinct primary keys, claiming a claimable member row succeeds and
updates exactly the matching rows. -/
theorem retrieve_message_success {db : DB} {id_ lock_duration now : Int}
    {r : MessageRow} (hu : db.uniqueIds) (hr : r ∈ db.messages) (hid : r.id = id_)
    (hc : claimable r now = true) :
    retrieve_message db id_ lock_duration now =
      (some ⟨r.id, r.created_at, r.message, some (now + lock_duration)⟩,
       { db with messages := db.messages.map (fun x =>
            if x.id == id_ && claimable x now then
              { x with lock_expires_at := some (now + lock_duration) } else x) }) := by
  unfold retrieve_message
  rw [find_claim_of_mem hu hr hid hc]

/-! ## C1: the claim protocol's contract -/

/-- C1: `retrieve_message` sets `lock_expires_at := now + lock_duration` on
the row with the given identifier if and only if that row exists and its
current `lock_expires_at` is NULL or strictly in the past; on a match it
returns the post-update row contents, otherwise `none` with the database
unchanged (row held by a live claim, or no such row). -/
theorem C1_claim_protocol (db : DB) (id_ lock_duration now : Int)
    (hu : db.uniqueIds) :
    ((retrieve_message db id_ lock_duration now).1.isSome = true ↔
       ∃ r ∈ db.messages, r.id = id_ ∧
         (r.lock_expires_at = none ∨ ∃ t, r.lock_expires_at = some t ∧ t < now))
  ∧ (∀ r ∈ db.messages, r.id = id_ →
       (r.lock_expires_at = none ∨ ∃ t, r.lock_expires_at = some t ∧ t < now) →
       retrieve_message db id_ lock_duration now =
         (some ⟨id_, r.created_at, r.message, some (now + lock_duration)⟩,
          { messages := db.messages.map (fun x =>
              if x.id = id_ then { x with lock_expires_at := some (now + lock_duration) }
              else x),
            archive := db.archive,
            next_archive_id := db.next_archive_id }))
  ∧ ((∀ r ∈ db.messages, r.id = id_ →
        ¬(r.lock_expires_at = none ∨ ∃ t, r.lock_expires_at = some t ∧ t < now)) →
       retrieve_message db id_ lock_duration now = (none, db)) := by
  refine ⟨⟨fun hs => ?_, fun ⟨r, hr, hid, hcond⟩ => ?_⟩, fun r hr hid hcond => ?_, fun h => ?_⟩
  · obtain ⟨m, hm⟩ := Option.isSome_iff_exists.mp hs
    obtain ⟨r, hr, hid, hc, _⟩ := retrieve_message_some hm
    exact ⟨r, hr, hid, (claimable_iff r now).mp hc⟩
  · rw [retrieve_message_success hu hr hid ((claimable_iff r now).mpr hcond)]
    rfl
  · have hc := (claimable_iff r now).mpr hcond
    rw [retrieve_message_success hu hr hid hc]
    refine congrArg₂ Prod.mk (by rw [hid]) ?_
    have hmap : ∀ x ∈ db.messages,
        (if x.id == id_ && claimable x now then
          { x with lock_expires_at := some (now + lock_duration) } else x) =
        (if x.id = id_ then
          { x with lock_expires_at := some (now + lock_duration) } else x) := by
      intro x hx
      by_cases hxid : x.id = id_
      · have hxr : x = r := eq_of_mem_of_id_eq hu hx hr (hxid.trans hid.symm)
        simp [hxid, hxr, hc]
      · simp [hxid]
    cases db with
    | mk ms ar na => simp only [List.map_congr_left hmap]
  · apply retrieve_message_none
    intro r hr ⟨hid, hc⟩
    exact h r hr hid ((claimable_iff r now).mp hc)

/-- Witness for C1 on a concrete database: claiming an unlocked row with
id 1 at time 10 for 60 ticks locks it until 70 and returns it. -/
theorem C1_claim_protocol_witness :
    retrieve_message ⟨[⟨1, 0, Json.arr [], none⟩], [], 1⟩ 1 60 10 =
      (some ⟨1, 0, Json.arr [], some 70⟩, ⟨[⟨1, 0, Json.arr [], some 70⟩], [], 1⟩) := by
  have h := (C1_claim_protocol ⟨[⟨1, 0, Json.arr [], none⟩], [], 1⟩ 1 60 10
      (by decide)).2.1 ⟨1, 0, Json.arr [], none⟩ (by simp) rfl (Or.inl rfl)
  exact h.trans rfl

/-! ## C3: claim exclusivity -/

/-- `n` claim attempts on the same identifier at the same instant `now`.
Each attempt is `retrieve_message`'s single atomic conditional update, so any
concurrent schedule of the `n` database operations serializes into this
sequence; the first component counts the attempts that returned the row. -/
def claimRace (db : DB) (id_ lock_duration now : Int) : Nat → Nat × DB
  | 0 => (0, db)
  | n + 1 =>
      let step := retrieve_message db id_ lock_duration now
      let rest := claimRace step.2 id_ lock_duration now n
      ((if step.1.isSome then 1 else 0) + rest.1, rest.2)

/-- When no row matches, every number of claim attempts has zero winners. -/
theorem claimRace_none {db : DB} {id_ lock_duration now : Int}
    (h : ∀ r ∈ db.messages, ¬(r.id = id_ ∧ claimable r now = true)) :
    ∀ n, claimRace db id_ lock_duration now n = (0, db) := by
  intro n
  induction n with
  | zero => rfl
  | succ n ih => simp only [claimRace, retrieve_message_none h, ih]; rfl

/-- In the claim query's post-state, no row with the claimed identifier is
claimable at the same instant when the lock duration is nonnegative. -/
theorem not_claimable_in_updated {l : List MessageRow} {id_ lock_duration now : Int}
    (hd : 0 ≤ lock_duration) :
    ∀ r ∈ l.map (fun x =>
        if x.id == id_ && claimable x now then
          { x with lock_expires_at := some (now + lock_duration) } else x),
      ¬(r.id = id_ ∧ claimable r now = true) := by
  intro r hr ⟨hrid, hrc⟩
  simp only [List.mem_map] at hr
  obtain ⟨x, hx, hfx⟩ := hr
  by_cases hp : (x.id == id_ && claimable x now) = true
  · rw [if_pos hp] at hfx
    rw [← hfx] at hrc
    unfold claimable at hrc
    simp only [decide_eq_true_eq] at hrc
    omega
  · rw [if_neg hp] at hfx
    rw [← hfx] at hrid hrc
    exact hp (by simp [hrid, hrc])

/-- C3: with distinct primary keys, a row carrying the requested identifier
with no live lock, and a nonnegative lock duration, any `n ≥ 1` claim
attempts on that identifier at the same instant have exactly one winner; all
other attempts observe `none`. -/
theorem C3_claim_exclusivity (db : DB) (id_ lock_duration now : Int)
    (r : MessageRow) (n : Nat) (hu : db.uniqueIds) (hr : r ∈ db.messages)
    (hid : r.id = id_) (hc : claimable r now = true) (hd : 0 ≤ lock_duration)
    (hn : 1 ≤ n) :
    (claimRace db id_ lock_duration now n).1 = 1 := by
  obtain ⟨m, rfl⟩ : ∃ m, n = m + 1 := ⟨n - 1, by omega⟩
  have hsucc := @retrieve_message_success db id_ lock_duration now r hu hr hid hc
  have hnone := @not_claimable_in_updated db.messages id_ lock_duration now hd
  have hzero := @claimRace_none
      ⟨db.messages.map (fun x =>
          if x.id == id_ && claimable x now then
            { x with lock_expires_at := some (now + lock_duration) } else x),
        db.archive, db.next_archive_id⟩ id_ lock_duration now hnone m
  simp only [claimRace, hsucc, hzero]
  rfl

/-- Witness for C3: three simultaneous claim attempts on a fresh one-row
database have exactly one winner. -/
theorem C3_claim_exclusivity_witness :
    (claimRace ⟨[⟨1, 0, Json.arr [], none⟩], [], 1⟩ 1 1 0 3).1 = 1 :=
  C3_claim_exclusivity ⟨[⟨1, 0, Json.arr [], none⟩], [], 1⟩ 1 1 0
    ⟨1, 0, Json.arr [], none⟩ 3 (by decide) (by simp) rfl rfl (by decide) (by decide)

/-! ## C2: the archive-and-delete transaction -/

/-- C2: the message delete and the archive insert run inside one
transaction.  If either operation faults, the database is unchanged, so
neither effect is observable; when the transaction commits, the archive row
(carrying the message's `created_at`, payload, outcome, handler and details)
is present and no row with the message's id remains.  The durable states are
exactly these two, so there is never one in which both rows exist nor one in
which neither exists for a fully processed message. -/
theorem C2_archive_delete_atomic (db : DB) (message : Message)
    (result : MessageStatus) (handled_by : String) (details : Option String)
    (now : Int) (deleteFault insertFault : Bool)
    (res : Except StorageFault MessageArchive) (db2 : DB)
    (h : archiveDeleteTxn db message result handled_by details now
          deleteFault insertFault = (res, db2)) :
    (∀ f, res = .error f → db2 = db)
  ∧ (∀ a, res = .ok a →
       db2.messages = db.messages.filter (fun r => !(r.id == message.id))
       ∧ (∀ r ∈ db2.messages, r.id ≠ message.id)
       ∧ db2.archive = db.archive ++ [a]
       ∧ a ∈ db2.archive
       ∧ a.created_at = message.created_at ∧ a.message = message.message
       ∧ a.result = result ∧ a.handled_by = handled_by ∧ a.details = details
       ∧ a.archived_at = now) := by
  rw [Prod.ext_iff] at h
  obtain ⟨h1, h2⟩ := h
  subst h1; subst h2
  cases deleteFault with
  | true =>
      refine ⟨fun f _ => rfl, fun a ha => ?_⟩
      simp [archiveDeleteTxn, archiveDeleteBody] at ha
  | false =>
      cases insertFault with
      | true =>
          refine ⟨fun f _ => rfl, fun a ha => ?_⟩
          simp [archiveDeleteTxn, archiveDeleteBody] at ha
      | false =>
          refine ⟨fun f hf => ?_, fun a ha => ?_⟩
          · simp [archiveDeleteTxn, archiveDeleteBody] at hf
          · simp only [archiveDeleteTxn, archiveDeleteBody, if_neg,
              Bool.false_eq_true, not_false_iff, if_false,
              create_message_archive] at ha ⊢
            have ha' : a = ⟨(delete_message db message.id).next_archive_id,
                message.created_at, now, message.message, result,
                handled_by, details⟩ := by
              cases ha
              rfl
            subst ha'
            refine ⟨rfl, ?_, rfl, ?_, rfl, rfl, rfl, rfl, rfl, rfl⟩
            · intro r hr
              exact mem_delete_message hr
            · simp [delete_message]

/-- Witness for C2: on a one-row database, an insert fault leaves the
database unchanged, and the fault-free run commits the archive row while
removing the message row. -/
theorem C2_archive_delete_atomic_witness :
    (archiveDeleteTxn ⟨[⟨1, 0, Json.arr [], some 1⟩], [], 1⟩
        ⟨1, 0, Json.arr [], some 1⟩ .success "worker" (some "fake work was done")
        5 false true).2 = ⟨[⟨1, 0, Json.arr [], some 1⟩], [], 1⟩ :=
  (C2_archive_delete_atomic ⟨[⟨1, 0, Json.arr [], some 1⟩], [], 1⟩
      ⟨1, 0, Json.arr [], some 1⟩ .success "worker" (some "fake work was done")
      5 false true _ _ rfl).1 .insertFailed rfl

/-! ## C5: the processing engine's classification -/

/-- C5: `process_message` rejects a non-list payload with an
invalid-format detail and an empty list with an empty-list detail; an
explicit `"fail"` head yields `failed` with the explicit-fail detail, an
explicit `"reject"` head yields `rejected`, and any first element that is
none of the recognized tokens (`"fail"`, `"reject"`, `"timeout"`,
`"raise"`) yields `success`. -/
theorem C5_processing_classification :
    (∀ m t, (∀ xs, m ≠ Json.arr xs) →
       process_message m t = .ret ⟨.rejected, some "invalid message format"⟩)
  ∧ (∀ t, process_message (.arr []) t = .ret ⟨.rejected, some "no message in list"⟩)
  ∧ (∀ rest t, process_message (.arr (.str "fail" :: rest)) t =
       .ret ⟨.failed, some "explicit fail instruction received"⟩)
  ∧ (∀ rest t, process_message (.arr (.str "reject" :: rest)) t =
       .ret ⟨.rejected, some "explicit reject instruction received"⟩)
  ∧ (∀ s rest t, s ≠ "fail" → s ≠ "reject" → s ≠ "timeout" → s ≠ "raise" →
       process_message (.arr (.str s :: rest)) t =
         .ret ⟨.success, some "fake work was done"⟩) := by
  refine ⟨fun m t h => ?_, fun t => rfl, fun rest t => rfl, fun rest t => rfl,
    fun s rest t h1 h2 h3 h4 => ?_⟩
  · cases m <;> try rfl
    rename_i xs
    exact absurd rfl (h xs)
  · unfold process_message
    split
    · simp_all
    · rename_i msg instr tail heq
      obtain ⟨rfl, rfl⟩ := heq
      split
      all_goals simp_all
    · simp_all

/-- Witness for C5: the unrecognized token `"noop"` is successful fake
work. -/
theorem C5_processing_classification_witness :
    process_message (.arr [.str "noop"]) 7 =
      .ret ⟨.success, some "fake work was done"⟩ :=
  C5_processing_classification.2.2.2.2 "noop" [] 7
    (by decide) (by decide) (by decide) (by decide)

/-! ## C4: the deadline gate before processing -/

/-- A successfully claimed message carries the fresh lock `now +
lock_duration`. -/
theorem retrieve_lock_eq {db : DB} {id_ lock_duration now : Int} {m : Message}
    (h : (retrieve_message db id_ lock_duration now).1 = some m) :
    m.lock_expires_at = some (now + lock_duration) := by
  obtain ⟨r, -, -, -, rfl⟩ := retrieve_message_some h
  rfl

/-- C4 counterexample: claim made at time 0 locks until 1; with the worker's
clock reading exactly 1 when work is about to begin, the remaining time is
`1 - 1 = 0` — non-positive — yet the Processing Engine runs and its
`success` outcome (only producible by the engine) is archived.  The code
gates on `timeout_remaining.total_seconds() < 0` strictly, so processing
starts at a remaining time of exactly zero, refuting "processing starts only
when the remaining time is strictly positive". -/
theorem C4_counterexample :
    (retrieve_message ⟨[⟨1, 0, .arr [.str "noop"], none⟩], [], 1⟩ 1
        workerLockDuration 0).1 = some ⟨1, 0, .arr [.str "noop"], some 1⟩
    ∧ ((1 : Int) - 1 ≤ 0)
    ∧ (callback ⟨[⟨1, 0, .arr [.str "noop"], none⟩], [], 1⟩ "1"
        0 1 5 false false).engineInvoked = true
    ∧ (callback ⟨[⟨1, 0, .arr [.str "noop"], none⟩], [], 1⟩ "1"
        0 1 5 false false).result =
        .archived ⟨1, 0, 5, .arr [.str "noop"], .success, "worker",
          some "fake work was done"⟩ :=
  ⟨rfl, by decide, rfl, rfl⟩

/-- C4 amended: the worker callback invokes the Processing Engine exactly
when the payload parses, the claim succeeds, the payload is not JSON null,
and the time remaining until the claim's `lock_expires_at` at the moment
work is about to begin is **nonnegative**; only a strictly negative
remaining time prevents the engine from starting. -/
theorem C4_deadline_gate (db : DB) (payload : String)
    (nowClaim nowWork nowArchive : Int) (deleteFault insertFault : Bool) :
    (callback db payload nowClaim nowWork nowArchive deleteFault
        insertFault).engineInvoked = true ↔
      ∃ id_ m, parsePyInt payload = some id_
        ∧ (retrieve_message db id_ workerLockDuration nowClaim).1 = some m
        ∧ m.message.isNull = false
        ∧ ∃ lea, m.lock_expires_at = some lea ∧ 0 ≤ lea - nowWork := by
  simp only [callback]
  cases hp : parsePyInt payload with
  | none => simp [hp]
  | some id_ =>
    simp only [hp]
    cases hm : (retrieve_message db id_ workerLockDuration nowClaim).1 with
    | none => simp [hp, hm]
    | some m =>
      simp only [hm]
      by_cases hnull : m.message.isNull
      · simp [hp, hm, hnull]
      · simp only [hnull, Bool.false_eq_true, if_false]
        cases hlock : m.lock_expires_at with
        | none => simp [hp, hm, hnull, hlock]
        | some lea =>
          simp only [hlock]
          split <;> simp [hp, hm, hnull, hlock]

/-! ## C6: engine faults are contained and converted to failed outcomes -/

/-- C6: faults raised while processing a claimed message never escape the
worker callback: an explicit raised error is caught and archived as `failed`
with the fault's description, and the `"timeout"` instruction — whose sleep
of `timeout_remaining + 1` always exceeds the `asyncio.timeout` deadline —
is cancelled at the deadline (it never reaches its post-sleep panic, whose
text never appears) and archived as `failed` with the timeout detail.  In
both cases the callback run ends in `archived`, not in a propagated
fault. -/
theorem C6_engine_fault_containment (db : DB) (payload : String)
    (nowClaim nowWork nowArchive id_ : Int) (m : Message) (rest : List Json)
    (hp : parsePyInt payload = some id_)
    (hm : (retrieve_message db id_ workerLockDuration nowClaim).1 = some m) :
    (m.message = .arr (.str "raise" :: rest) →
       0 ≤ nowClaim + workerLockDuration - nowWork →
       ∃ a, (callback db payload nowClaim nowWork nowArchive
              false false).result = .archived a
         ∧ a.result = .failed
         ∧ a.details = some "unhandled exception: Explicit raise instruction received")
  ∧ (m.message = .arr (.str "timeout" :: rest) →
       ∃ a, (callback db payload nowClaim nowWork nowArchive
              false false).result = .archived a
         ∧ a.result = .failed ∧ a.details = some "timed out") := by
  have hlock := retrieve_lock_eq hm
  constructor
  · intro hmsg hrem
    simp only [callback, hp, hm, hmsg, hlock, Json.isNull, Bool.false_eq_true,
      if_false]
    rw [if_neg (by omega)]
    simp [process_message, runGuarded, archiveDeleteTxn, archiveDeleteBody,
      create_message_archive]
  · intro hmsg
    simp only [callback, hp, hm, hmsg, hlock, Json.isNull, Bool.false_eq_true,
      if_false]
    by_cases hrem : nowClaim + workerLockDuration - nowWork < 0
    · rw [if_pos hrem]
      simp [archiveDeleteTxn, archiveDeleteBody, create_message_archive]
    · rw [if_neg hrem]
      simp only [process_message, runGuarded]
      rw [if_pos (by omega)]
      simp [archiveDeleteTxn, archiveDeleteBody, create_message_archive]

/-- Witness for C6: an explicit `"raise"` payload, claimed at time 0 and
worked at time 0, is archived as `failed` with the exception's
description. -/
theorem C6_engine_fault_containment_witness :
    ∃ a, (callback ⟨[⟨1, 0, .arr [.str "raise"], none⟩], [], 1⟩ "1"
          0 0 5 false false).result = .archived a
      ∧ a.result = .failed
      ∧ a.details = some "unhandled exception: Explicit raise instruction received" :=
  (C6_engine_fault_containment ⟨[⟨1, 0, .arr [.str "raise"], none⟩], [], 1⟩
      "1" 0 0 5 1 ⟨1, 0, .arr [.str "raise"], some 1⟩ [] (by decide) rfl).1
    rfl (by decide)

/-! ## C7: the archived payload equals the stored payload -/

/-- C7: for a message claimed from row `r` and then archived, the payload
stored in the archive row is the payload of `r`, unchanged: equal as JSONB
values, and byte-for-byte equal in canonical serialized form. -/
theorem C7_payload_roundtrip (db : DB) (id_ lock_duration nowClaim nowArchive : Int)
    (r : MessageRow) (m : Message) (res : MessageStatus) (hb : String)
    (dets : Option String) (a : MessageArchive) (db2 : DB)
    (hu : db.uniqueIds) (hr : r ∈ db.messages) (hid : r.id = id_)
    (hm : (retrieve_message db id_ lock_duration nowClaim).1 = some m)
    (htxn : archiveDeleteTxn (retrieve_message db id_ lock_duration nowClaim).2 m
        res hb dets nowArchive false false = (.ok a, db2)) :
    a.message = r.message ∧ serializeJson a.message = serializeJson r.message := by
  obtain ⟨x, hx, hxid, hxc, rfl⟩ := retrieve_message_some hm
  have hxr : x = r := eq_of_mem_of_id_eq hu hx hr (hxid.trans hid.symm)
  subst hxr
  have hmsg : a.message = x.message := by
    simp only [archiveDeleteTxn, archiveDeleteBody, create_message_archive,
      Bool.false_eq_true, if_false, Prod.mk.injEq, Except.ok.injEq] at htxn
    obtain ⟨h1, -⟩ := htxn
    rw [← h1]
  exact ⟨hmsg, congrArg serializeJson hmsg⟩

/-- Witness for C7 on a concrete run: the archived row carries the row's
original payload, byte-for-byte in serialized form. -/
theorem C7_payload_roundtrip_witness :
    (⟨1, 0, 5, .arr [.str "noop"], .success, "worker", some "d"⟩ :
        MessageArchive).message =
      (⟨1, 0, .arr [.str "noop"], none⟩ : MessageRow).message
    ∧ serializeJson (⟨1, 0, 5, .arr [.str "noop"], .success, "worker",
        some "d"⟩ : MessageArchive).message =
      serializeJson (⟨1, 0, .arr [.str "noop"], none⟩ : MessageRow).message :=
  C7_payload_roundtrip ⟨[⟨1, 0, .arr [.str "noop"], none⟩], [], 1⟩ 1 1 0 5
    ⟨1, 0, .arr [.str "noop"], none⟩ ⟨1, 0, .arr [.str "noop"], some 1⟩
    .success "worker" (some "d")
    ⟨1, 0, 5, .arr [.str "noop"], .success, "worker", some "d"⟩
    ⟨[], [⟨1, 0, 5, .arr [.str "noop"], .success, "worker", some "d"⟩], 2⟩
    (by decide) (by simp) rfl rfl rfl

/-! ## C8: notification payload parsing -/

/-- C8 counterexample: the notification payload `"-5"` does not denote a
positive integer identifier, yet Python `int()` parses it, no error is
escalated, and the callback proceeds to the claim attempt (which merely
finds no row and skips): positivity is never checked. -/
theorem C8_counterexample :
    parsePyInt "-5" = some (-5)
    ∧ ¬(0 < (-5 : Int))
    ∧ (callback ⟨[], [], 1⟩ "-5" 0 0 5 false false).result = .skipped :=
  ⟨by decide, by decide, rfl⟩

/-- C8 amended: the callback escalates a notification payload as a hard
`ValueError` exactly when the payload fails to parse as a Python integer
(optional sign, digit run) — positivity is not required; whenever parsing
succeeds the callback proceeds to the claim attempt. -/
theorem C8_payload_parsing (db : DB) (payload : String)
    (nowClaim nowWork nowArchive : Int) (deleteFault insertFault : Bool) :
    (callback db payload nowClaim nowWork nowArchive deleteFault
        insertFault).result = .badPayload
      ↔ parsePyInt payload = none := by
  simp only [callback]
  cases hp : parsePyInt payload with
  | none => simp
  | some id_ =>
    cases hm : (retrieve_message db id_ workerLockDuration nowClaim).1 with
    | none => simp [hm]
    | some m =>
      simp only [hm]
      by_cases hnull : m.message.isNull
      · simp [hnull]
      · simp only [hnull, Bool.false_eq_true, if_false]
        cases hlock : m.lock_expires_at with
        | none => simp
        | some lea =>
          simp only [hlock]
          split <;> simp

/-! ## C9: the `lock_expired` outcome kind is never produced -/

/-- No returning path of `process_message` classifies as `lock_expired`. -/
theorem process_message_ret_not_lock_expired (m : Json) (t : Int)
    (r : ProcessMessageResult) (h : process_message m t = .ret r) :
    r.result ≠ .lock_expired := by
  unfold process_message at h
  split at h
  · cases h; decide
  · split at h <;> (try cases h) <;> simp_all
  · cases h; decide

/-- The callback's processing step — the expired-lock precheck plus the
deadline-guarded engine run — never classifies as `lock_expired`. -/
theorem cbResult_not_lock_expired (m : Json) (t : Int) :
    (if t < 0 then ProcessMessageResult.mk .failed (some "timed out")
      else runGuarded (process_message m t) t).result ≠ .lock_expired := by
  by_cases h : t < 0
  · simp [h]
  · rw [if_neg h]
    cases hb : process_message m t with
    | ret r => simpa [runGuarded] using process_message_ret_not_lock_expired m t r hb
    | sleepThenPanic d => simp only [runGuarded]; split <;> decide
    | raiseValueError s => simp only [runGuarded]; decide

/-- C9: no callback execution archives a `lock_expired` outcome; when the
claim's lock is already expired before processing begins (remaining time
negative), the callback raises a timeout-style fault that is archived as
`failed` with the `"timed out"` detail — the `lock_expired` member of the
taxonomy is never produced. -/
theorem C9_lock_expired_never_archived (db : DB) (payload : String)
    (nowClaim nowWork nowArchive : Int) (deleteFault insertFault : Bool) :
    (∀ a, (callback db payload nowClaim nowWork nowArchive deleteFault
        insertFault).result = .archived a → a.result ≠ .lock_expired)
  ∧ (∀ id_ m, parsePyInt payload = some id_ →
      (retrieve_message db id_ workerLockDuration nowClaim).1 = some m →
      m.message.isNull = false →
      nowClaim + workerLockDuration - nowWork < 0 →
      ∃ a, (callback db payload nowClaim nowWork nowArchive false
            false).result = .archived a
        ∧ a.result = .failed ∧ a.details = some "timed out") := by
  constructor
  · intro a
    simp only [callback]
    cases hp : parsePyInt payload with
    | none => intro ha; simp [hp] at ha
    | some id_ =>
      cases hm : (retrieve_message db id_ workerLockDuration nowClaim).1 with
      | none => intro ha; simp [hm] at ha
      | some m =>
        simp only [hm]
        by_cases hnull : m.message.isNull
        · simp only [hnull, if_true]; intro ha; simp at ha
        · simp only [hnull, Bool.false_eq_true, if_false]
          cases hlock : m.lock_expires_at with
          | none => intro ha; simp [hlock] at ha
          | some lea =>
            simp only [hlock]
            split
            · rename_i a' db2 heq
              intro ha
              simp only [CallbackResult.archived.injEq] at ha
              subst ha
              cases deleteFault with
              | true => simp [archiveDeleteTxn, archiveDeleteBody] at heq
              | false =>
                cases insertFault with
                | true => simp [archiveDeleteTxn, archiveDeleteBody] at heq
                | false =>
                  simp only [archiveDeleteTxn, archiveDeleteBody,
                    Bool.false_eq_true, if_false, create_message_archive,
                    Prod.mk.injEq, Except.ok.injEq] at heq
                  obtain ⟨h1, -⟩ := heq
                  rw [← h1]
                  exact cbResult_not_lock_expired m.message (lea - nowWork)
            · intro ha; simp at ha
  · intro id_ m hp hm hnull hrem
    have hlock := retrieve_lock_eq hm
    simp only [callback, hp, hm, hlock, hnull, Bool.false_eq_true, if_false]
    rw [if_pos (by omega)]
    simp [archiveDeleteTxn, archiveDeleteBody, create_message_archive]

/-- Witness for C9: a claim locked until time 1 but worked at time 5
(remaining time −4) is archived as `failed` with the timeout detail, not as
`lock_expired`. -/
theorem C9_lock_expired_never_archived_witness :
    ∃ a, (callback ⟨[⟨1, 0, .arr [.str "noop"], none⟩], [], 1⟩ "1"
          0 5 9 false false).result = .archived a
      ∧ a.result = .failed ∧ a.details = some "timed out" :=
  (C9_lock_expired_never_archived ⟨[⟨1, 0, .arr [.str "noop"], none⟩], [], 1⟩
      "1" 0 5 9 false false).2 1 ⟨1, 0, .arr [.str "noop"], some 1⟩
    (by decide) rfl rfl (by decide)

/-! ## C10: fields of a successfully claimed message -/

/-- A payload parses to Python `None` exactly when it is the JSON literal
`null`. -/
theorem Json.isNull_iff (j : Json) : j.isNull = true ↔ j = Json.null := by
  cases j <;> simp [Json.isNull]

/-- C10 counterexample: a stored payload of JSON `null` is a legal non-NULL
JSONB value; the row is successfully claimed and returned, and the parsed
payload attribute is Python `None`, so the callback's
`assert message.message is not None` fires after a successful claim. -/
theorem C10_counterexample :
    (retrieve_message ⟨[⟨1, 0, Json.null, none⟩], [], 1⟩ 1
        workerLockDuration 0).1 = some ⟨1, 0, Json.null, some 1⟩
    ∧ (callback ⟨[⟨1, 0, Json.null, none⟩], [], 1⟩ "1" 0 0 5
        false false).result = .assertionFault "Message is None!" :=
  ⟨rfl, rfl⟩

/-- C10 amended: a successfully claimed message always carries the fresh
non-null lock `now + lock_duration` — so the callback's `lock_expires_at`
assertion never fires on any run — and its payload field equals the stored
row's payload; that payload may be the JSON literal `null` (parsed to Python
`None`), and the payload assertion fires exactly on such a claim. -/
theorem C10_claimed_message_fields (db : DB) (payload : String)
    (id_ lock_duration now nowClaim nowWork nowArchive : Int) (m : Message)
    (deleteFault insertFault : Bool) :
    ((retrieve_message db id_ lock_duration now).1 = some m →
       m.lock_expires_at = some (now + lock_duration)
       ∧ ∃ r ∈ db.messages, r.id = id_ ∧ m.message = r.message)
  ∧ (callback db payload nowClaim nowWork nowArchive deleteFault
        insertFault).result ≠ .assertionFault "lock_expires_at not set!"
  ∧ ((callback db payload nowClaim nowWork nowArchive deleteFault
        insertFault).result = .assertionFault "Message is None!" →
     ∃ i m', parsePyInt payload = some i
       ∧ (retrieve_message db i workerLockDuration nowClaim).1 = some m'
       ∧ m'.message = Json.null) := by
  refine ⟨fun hm => ?_, ?_, ?_⟩
  · obtain ⟨r, hr, hid, -, rfl⟩ := retrieve_message_some hm
    exact ⟨rfl, r, hr, hid, rfl⟩
  · simp only [callback]
    cases hp : parsePyInt payload with
    | none => intro h; simp [hp] at h
    | some id_ =>
      cases hm : (retrieve_message db id_ workerLockDuration nowClaim).1 with
      | none => intro h; simp [hm] at h
      | some m' =>
        simp only [hm]
        by_cases hnull : m'.message.isNull
        · simp only [hnull, if_true]
          intro h
          simp only [CallbackResult.assertionFault.injEq] at h
          exact absurd h (by decide)
        · simp only [hnull, Bool.false_eq_true, if_false]
          cases hlock : m'.lock_expires_at with
          | none =>
              have := retrieve_lock_eq hm
              rw [hlock] at this
              cases this
          | some lea =>
              simp only [hlock]
              split <;> (intro h; simp at h)
  · simp only [callback]
    cases hp : parsePyInt payload with
    | none => intro h; simp [hp] at h
    | some id_ =>
      cases hm : (retrieve_message db id_ workerLockDuration nowClaim).1 with
      | none => intro h; simp [hm] at h
      | some m' =>
        simp only [hm]
        by_cases hnull : m'.message.isNull
        · simp only [hnull, if_true]
          intro h
          exact ⟨id_, m', rfl, hm, (Json.isNull_iff m'.message).mp hnull⟩
        · simp only [hnull, Bool.false_eq_true, if_false]
          cases hlock : m'.lock_expires_at with
          | none =>
              intro h
              simp only [CallbackResult.assertionFault.injEq] at h
              exact absurd h (by decide)
          | some lea =>
              simp only [hlock]
              split <;> (intro h; simp at h)

/-- Witness for C10 amended: a concrete successful claim carries the
non-null lock and the original payload. -/
theorem C10_claimed_message_fields_witness :
    (⟨1, 0, .arr [.str "noop"], some 1⟩ : Message).lock_expires_at = some (0 + 1)
    ∧ ∃ r ∈ (⟨[⟨1, 0, .arr [.str "noop"], none⟩], [], 1⟩ : DB).messages,
        r.id = 1 ∧ (⟨1, 0, .arr [.str "noop"], some 1⟩ : Message).message = r.message :=
  (C10_claimed_message_fields ⟨[⟨1, 0, .arr [.str "noop"], none⟩], [], 1⟩ "1"
      1 1 0 0 0 5 ⟨1, 0, .arr [.str "noop"], some 1⟩ false false).1 rfl
